import Mathlib

/-!
# Verification of the website-highlight-saver storage and caching layer

Shallow embedding of the background service worker (`BackgroundService`),
the popup storage wrapper (`HighlightStorage`), the content-script cache
manager (`CacheManager`) and the AI request de-duplication layer
(`AIUtils`).  JavaScript records with dynamically-typed fields are
modelled by `JRec` over the tagged value type `JVal`; absent fields are
`Option.none`.  Lists model JS arrays, association lists model JS `Map`s
and plain storage objects.  The serialized storage queue and the in-flight
request registry are modelled by explicit interleaving machines.
-/

set_option autoImplicit false

set_option maxRecDepth 20000

/-! ## JavaScript value and record model -/

/-- A dynamically-typed JavaScript field value (the shapes the code inspects). -/
inductive JVal where
  | str : String → JVal
  | num : Int → JVal
  | boolVal : Bool → JVal
deriving DecidableEq, Repr

/-- A highlight-shaped JavaScript object: each field may be absent (`none`). -/
structure JRec where
  id : Option JVal
  text : Option JVal
  url : Option JVal
  timestamp : Option JVal
deriving DecidableEq, Repr

/-- JavaScript truthiness of a possibly-absent field value
(`undefined`, `""`, `0` and `false` are falsy). -/
def truthy : Option JVal → Bool
  | none => false
  | some (JVal.str s) => !(decide (s = ""))
  | some (JVal.num n) => !(decide (n = 0))
  | some (JVal.boolVal b) => b

/-- `typeof v === "string" && v.length > 0`. -/
def isNonEmptyStr : Option JVal → Bool
  | some (JVal.str s) => decide (0 < s.length)
  | _ => false

/-- `typeof v === "string" && v.length > 0 && v.length <= maxLen`. -/
def isBoundedStr (v : Option JVal) (maxLen : Nat) : Bool :=
  match v with
  | some (JVal.str s) => decide (0 < s.length) && decide (s.length ≤ maxLen)
  | _ => false

/-- `typeof v === "number" && v > 0`. -/
def isPosNum : Option JVal → Bool
  | some (JVal.num n) => decide (0 < n)
  | _ => false

/-! ## Configuration constants (BackgroundService constructor) -/

def RATE_LIMIT_MAX : Nat := 5

def RATE_LIMIT_WINDOW : Int := 60000

def MAX_HIGHLIGHTS : Nat := 1000

def MAX_TEXT_LENGTH : Nat := 1000

def MAX_URL_LENGTH : Nat := 500

/-- `BackgroundService.getHighlights`: `result.highlights || []` — returns the
stored array (the stored state is modelled with the `|| []` default already
applied). -/
def getHighlights (store : List JRec) : List JRec := store

/-- The timestamp defaulting inside `saveHighlight`:
`if (!highlight.timestamp) highlight.timestamp = Date.now()`. -/
def assignTimestamp (h : JRec) (now : Int) : JRec :=
  if truthy h.timestamp then h else { h with timestamp := some (JVal.num now) }

/-- The admission test at the top of `BackgroundService.saveHighlight`:
`if (!highlight || !highlight.text || !highlight.url) throw`. -/
def saveAccepted : Option JRec → Bool
  | none => false
  | some h => truthy h.text && truthy h.url

/-- `BackgroundService.saveHighlight`: reject on the admission test, otherwise
(under the storage lock) default the timestamp, `unshift` onto the stored
list and `splice(MAX_HIGHLIGHTS)` (= keep the first 1000 entries).  Returns
the saved record and the new stored list, or `none` when the call throws. -/
def saveHighlight (oh : Option JRec) (now : Int) (store : List JRec) :
    Option (JRec × List JRec) :=
  match oh with
  | none => none
  | some h =>
    if truthy h.text && truthy h.url then
      some (assignTimestamp h now,
            List.take MAX_HIGHLIGHTS (assignTimestamp h now :: store))
    else none

/-- The validation filter in `BackgroundService.importHighlights`
(lines 221–235): `id` non-empty string, `text` non-empty string of length
≤ `MAX_TEXT_LENGTH`, `url` non-empty string of length ≤ `MAX_URL_LENGTH`,
`timestamp` a positive number. -/
def bgImportValid (h : JRec) : Bool :=
  isNonEmptyStr h.id &&
  isBoundedStr h.text MAX_TEXT_LENGTH &&
  isBoundedStr h.url MAX_URL_LENGTH &&
  isPosNum h.timestamp

/-- `HighlightStorage.validateHighlight` (popup side, lines 564–579): same
shape, but with the literal bounds `10000` for `text` and `2048` for `url`. -/
def validateHighlight (h : JRec) : Bool :=
  isNonEmptyStr h.id &&
  isBoundedStr h.text 10000 &&
  isBoundedStr h.url 2048 &&
  isPosNum h.timestamp

/-- `incoming.filter(h => h && typeof h === "object" && p h)`: drops `null` /
non-object entries (`none`) and entries failing the predicate. -/
def filterValid (p : JRec → Bool) (incoming : List (Option JRec)) : List JRec :=
  incoming.filterMap (fun oh =>
    match oh with
    | some h => if p h then some h else none
    | none => none)

/-- The record returned by `BackgroundService.importHighlights` together with
the stored list it leaves behind (replace mode reports no duplicate count;
it is modelled as `0`). -/
structure ImportOutcome where
  store : List JRec
  imported : Nat
  skippedDuplicates : Nat
  skippedInvalid : Nat
deriving DecidableEq, Repr

/-- `BackgroundService.importHighlights` (under the storage lock).  Merge
mode: collect existing ids, keep only incoming valid records whose id is not
already present, prepend them, truncate to `MAX_HIGHLIGHTS`.  Replace mode:
store exactly the validated incoming records (note: no truncation occurs in
this branch of the source). -/
def importHighlights (incoming : List (Option JRec)) (merge : Bool)
    (existing : List JRec) : ImportOutcome :=
  let valid := filterValid bgImportValid incoming
  let skipped := incoming.length - valid.length
  if merge then
    let existingIds := existing.map (fun r => r.id)
    let newHighlights := valid.filter (fun h => !(decide (h.id ∈ existingIds)))
    let merged := List.take MAX_HIGHLIGHTS (newHighlights ++ existing)
    { store := merged
      imported := newHighlights.length
      skippedDuplicates := valid.length - newHighlights.length
      skippedInvalid := skipped }
  else
    { store := valid
      imported := valid.length
      skippedDuplicates := 0
      skippedInvalid := skipped }

/-! ## Rate limiter (`BackgroundService._checkRateLimit`) -/

/-- `BackgroundService._checkRateLimit`: prune timestamps outside the sliding
window, throw with `Math.ceil((WINDOW - (now - oldest)) / 1000)` seconds of
remaining wait when the pruned list is at capacity, otherwise append `now`.
`Except.error w` models the thrown rate-limit error carrying wait time `w`;
`Except.ok ts` returns the updated timestamp list. -/
def checkRateLimit (now : Int) (timestamps : List Int) :
    Except Int (List Int) :=
  let pruned := timestamps.filter (fun t => decide (now - t < RATE_LIMIT_WINDOW))
  if RATE_LIMIT_MAX ≤ pruned.length then
    let oldestCall := pruned.headD 0
    Except.error (Int.ediv (RATE_LIMIT_WINDOW - (now - oldestCall) + 999) 1000)
  else
    Except.ok (pruned ++ [now])

/-! ## Association-list model of JS `Map` / plain storage objects -/

/-- `map.get(k)` (first binding wins; the write operations below keep keys
unique, matching `Map` semantics). -/
def mapGet {α : Type} (m : List (String × α)) (k : String) : Option α :=
  match m.find? (fun kv => decide (kv.1 = k)) with
  | some kv => some kv.2
  | none => none

/-- `map.set(k, v)`: overwrite an existing binding in place, else append. -/
def mapSet {α : Type} (m : List (String × α)) (k : String) (v : α) :
    List (String × α) :=
  if (m.find? (fun kv => decide (kv.1 = k))).isSome then
    m.map (fun kv => if kv.1 = k then (k, v) else kv)
  else
    m ++ [(k, v)]

/-! ## Content-script cache manager (`CacheManager`) -/

/-- A summary cache entry `{ summary, timestamp }` (both the background
`summaryCache` storage object and `CacheManager.summaryCache` use this
shape). -/
structure SummaryEntry where
  summary : String
  timestamp : Int
deriving DecidableEq, Repr

/-- `CacheManager.getCachedSummary` (content side, lines 221–230): identical
logic with the same 5-minute TTL literal. -/
def cmGetCachedSummary (cache : List (String × SummaryEntry)) (now : Int)
    (key : String) : Option String :=
  match mapGet cache key with
  | some cached =>
    if now - cached.timestamp < 300000 then some cached.summary
    else none
  | none => none

/-- One in-flight `saveHighlight` critical section: program counter `0` =
about to read the stored list, `1` = read done (`localList` holds the copy
`chrome.storage.local.get` returned), `2` = write done. -/
structure SaveTask where
  h : JRec
  now : Int
  pc : Nat
  localList : List JRec
deriving DecidableEq, Repr

/-- A freshly queued save task for highlight `h`. -/
def initSaveTask (h : JRec) (now : Int) : SaveTask :=
  { h := h, now := now, pc := 0, localList := [] }

/-- One atomic step of a save task against the shared stored list: the read
half captures the list; the write half stores the prepended, truncated
list computed from the captured copy. -/
def saveTaskStep (store : List JRec) (t : SaveTask) : List JRec × SaveTask :=
  match t.pc with
  | 0 => (store, { t with pc := 1, localList := store })
  | 1 => (List.take MAX_HIGHLIGHTS (assignTimestamp t.h t.now :: t.localList),
          { t with pc := 2 })
  | _ => (store, t)

/-- Run a schedule over the shared store and the two tasks
(`false` steps the first task, `true` the second). -/
def runSchedule (sched : List Bool) (store : List JRec) (ta tb : SaveTask) :
    List JRec × SaveTask × SaveTask :=
  match sched with
  | [] => (store, ta, tb)
  | c :: rest =>
    if c then
      let stepped := saveTaskStep store tb
      runSchedule rest stepped.1 ta stepped.2
    else
      let stepped := saveTaskStep store ta
      runSchedule rest stepped.1 stepped.2 tb

/-- The schedule the serialization queue admits for two back-to-back saves:
the first caller's read and write complete before the second caller runs. -/
def lockedSchedule : List Bool := [false, false, true, true]

/-- The racy schedule the lock forbids: both reads happen before either
write. -/
def racySchedule : List Bool := [false, true, false, true]

/-! ## AI request de-duplication (`AIUtils.summarizeHighlight`) -/

/-- Content-side summarization state: the `CacheManager` summary cache, the
in-flight request registry `apiRequestQueue` (key ↦ request token), the
number of outbound calls issued so far, and a fresh-token counter naming the
next request promise. -/
structure AIState where
  summaryCache : List (String × SummaryEntry)
  apiRequestQueue : List (String × Nat)
  outboundCalls : Nat
  nextRequestId : Nat
deriving DecidableEq, Repr

/-- What the synchronous prefix of `summarizeHighlight` leaves a caller
doing: returning a cached summary immediately, or awaiting the request
promise named by `reqId`. -/
inductive StartOutcome where
  | cachedResult : String → StartOutcome
  | awaitRequest : Nat → StartOutcome
deriving DecidableEq, Repr

/-- The cache-miss path of the synchronous prefix: if a request for the key
is already in flight, await that promise; otherwise issue the outbound call
(`performSummarizeRequest`), register its promise in the queue, and await
it. -/
def startMiss (key : String) (st : AIState) : StartOutcome × AIState :=
  match mapGet st.apiRequestQueue key with
  | some r => (StartOutcome.awaitRequest r, st)
  | none =>
    (StartOutcome.awaitRequest st.nextRequestId,
     { st with
        apiRequestQueue := st.apiRequestQueue ++ [(key, st.nextRequestId)]
        outboundCalls := st.outboundCalls + 1
        nextRequestId := st.nextRequestId + 1 })

/-- The synchronous prefix of `AIUtils.summarizeHighlight`, which runs
without interruption up to the first `await`: check the summary cache
(`if (cachedSummary)` — an empty string is falsy and falls through), then
the in-flight registry, then issue and register a new request. -/
def startSummarize (key : String) (now : Int) (st : AIState) :
    StartOutcome × AIState :=
  match cmGetCachedSummary st.summaryCache now key with
  | some s => if s = "" then startMiss key st else (StartOutcome.cachedResult s, st)
  | none => startMiss key st

/-- The continuation of the issuing caller after its request resolves:
cache the summary and remove the registry entry (the `finally` block). -/
def finishSummarize (key : String) (result : String) (now : Int)
    (st : AIState) : AIState :=
  { st with
      summaryCache := mapSet st.summaryCache key { summary := result, timestamp := now }
      apiRequestQueue := st.apiRequestQueue.filter (fun kv => !(decide (kv.1 = key))) }

/-! ## Summary cache key (`CacheManager.generateSummaryCacheKey`) -/

/-- The fields `generateSummaryCacheKey` reads from its argument. -/
structure SummaryHighlight where
  text : String
  url : String
  title : String
deriving DecidableEq, Repr

/-- Character class of the regex `[a-zA-Z0-9]`. -/
def jsAlphanum (c : Char) : Bool :=
  (decide ('a' ≤ c) && decide (c ≤ 'z')) ||
  (decide ('A' ≤ c) && decide (c ≤ 'Z')) ||
  (decide ('0' ≤ c) && decide (c ≤ '9'))

/-- `s.replace(/[^a-zA-Z0-9]/g, "_")`: every non-alphanumeric character
becomes an underscore. -/
def sanitizeKey (s : String) : String :=
  String.mk (s.data.map (fun c => if jsAlphanum c then c else '_'))

/-- `highlight.text.substring(0, 100)`. -/
def jsTake (s : String) (n : Nat) : String := String.mk (s.data.take n)

/-- `CacheManager.generateSummaryCacheKey`: sanitize
`text.substring(0,100) + "_" + url + "_" + title`. -/
def generateSummaryCacheKey (h : SummaryHighlight) : String :=
  sanitizeKey (jsTake h.text 100 ++ "_" ++ h.url ++ "_" ++ h.title)

/-! Sanity checks (concrete evaluation of the embedded operations). -/

def sampleRec : JRec :=
  { id := some (JVal.str "i")
    text := some (JVal.str "t")
    url := some (JVal.str "u")
    timestamp := some (JVal.num 1) }

example : bgImportValid sampleRec = true := by decide

example : validateHighlight sampleRec = true := by decide

example :
    saveHighlight (some sampleRec) 7 [] = some (sampleRec, [sampleRec]) := by
  decide

example :
    (importHighlights [some sampleRec, none] false []).imported = 1 := by
  decide

example : checkRateLimit 10 [0, 1, 2, 3, 4] = Except.error 60 := rfl

example : checkRateLimit 10 [0] = Except.ok [0, 10] := rfl

example :
    generateSummaryCacheKey { text := "a b", url := "u", title := "t" }
      = "a_b_u_t" := by decide

example :
    (runSchedule lockedSchedule [] (initSaveTask sampleRec 1)
      (initSaveTask sampleRec 2)).1.length = 2 := by decide

example :
    (runSchedule racySchedule [] (initSaveTask sampleRec 1)
      (initSaveTask sampleRec 2)).1.length = 1 := by decide

example :
    (startSummarize "k" 0 ⟨[], [], 0, 0⟩).1 = StartOutcome.awaitRequest 0 := by
  decide

/-! ## Helper lemmas -/

theorem assignTimestamp_id (h : JRec) (now : Int) :
    (assignTimestamp h now).id = h.id := by
  unfold assignTimestamp
  split <;> rfl

theorem take_thousand_cons (a : JRec) (l : List JRec) :
    List.take MAX_HIGHLIGHTS (a :: l) = a :: List.take 999 l := by
  have h : MAX_HIGHLIGHTS = 999 + 1 := by norm_num [MAX_HIGHLIGHTS]
  rw [h, List.take_succ_cons]

theorem mem_filterValid (p : JRec → Bool) (l : List (Option JRec)) (r : JRec)
    (hr : r ∈ filterValid p l) : p r = true := by
  unfold filterValid at hr
  rcases List.mem_filterMap.mp hr with ⟨oh, _, heq⟩
  match oh with
  | none => simp at heq
  | some h =>
    by_cases hp : p h = true
    · simp only [hp, if_true] at heq
      cases heq
      exact hp
    · simp only [Bool.not_eq_true] at hp
      simp [hp] at heq

theorem isBoundedStr_nonEmpty (v : Option JVal) (n : Nat)
    (h : isBoundedStr v n = true) : isNonEmptyStr v = true := by
  unfold isBoundedStr at h
  unfold isNonEmptyStr
  match v with
  | none => simp at h
  | some (JVal.str s) => simp_all
  | some (JVal.num _) => simp at h
  | some (JVal.boolVal _) => simp at h

theorem isBoundedStr_mono (v : Option JVal) (m n : Nat) (hmn : m ≤ n)
    (h : isBoundedStr v m = true) : isBoundedStr v n = true := by
  unfold isBoundedStr at h ⊢
  match v with
  | none => simp at h
  | some (JVal.str s) =>
    simp only [Bool.and_eq_true, decide_eq_true_eq] at h ⊢
    omega
  | some (JVal.num _) => simp at h
  | some (JVal.boolVal _) => simp at h

theorem length_filter_not_add_length_filter {α : Type} (p : α → Bool)
    (l : List α) :
    (l.filter (fun a => !(p a))).length + (l.filter p).length = l.length := by
  induction l with
  | nil => rfl
  | cons a l ih =>
    by_cases hp : p a = true
    · rw [List.filter_cons_of_pos hp, List.filter_cons_of_neg (by simp [hp])]
      simp only [List.length_cons]
      omega
    · rw [List.filter_cons_of_neg hp,
          List.filter_cons_of_pos (by simp [Bool.not_eq_true] at hp ⊢; exact hp)]
      simp only [List.length_cons]
      omega

theorem filterValid_replicate_some (p : JRec → Bool) (r : JRec) (n : Nat)
    (hp : p r = true) :
    filterValid p (List.replicate n (some r)) = List.replicate n r := by
  induction n with
  | zero => rfl
  | succ n ih =>
    rw [List.replicate_succ, List.replicate_succ]
    unfold filterValid at ih ⊢
    rw [List.filterMap_cons]
    simp only [hp, if_true]
    rw [ih]

/-! ## C1 — save prepends, deduplicates fresh ids, and truncates at the cap -/

/-- C1: for a valid highlight (truthy `text` and `url`) whose id is not
already stored, `saveHighlight` prepends the (timestamp-defaulted) record to
the previous list and truncates to at most 1000 entries from the tail; the
saved id occurs exactly once and heads the list; saving against a list at
the 1000-entry cap retains exactly 1000 records, the most recent first. -/
theorem save_prepend_truncate_spec (h : JRec) (now : Int) (store : List JRec)
    (htext : truthy h.text = true) (hurl : truthy h.url = true)
    (hfresh : ∀ r ∈ store, r.id ≠ h.id) :
    saveHighlight (some h) now store
      = some (assignTimestamp h now,
              List.take MAX_HIGHLIGHTS (assignTimestamp h now :: store)) ∧
    getHighlights (List.take MAX_HIGHLIGHTS (assignTimestamp h now :: store))
      = assignTimestamp h now :: List.take 999 store ∧
    (List.take MAX_HIGHLIGHTS (assignTimestamp h now :: store)).head?
      = some (assignTimestamp h now) ∧
    (assignTimestamp h now).id = h.id ∧
    (List.take MAX_HIGHLIGHTS (assignTimestamp h now :: store)).countP
        (fun r => decide (r.id = h.id)) = 1 ∧
    (List.take MAX_HIGHLIGHTS (assignTimestamp h now :: store)).length
      = min MAX_HIGHLIGHTS (store.length + 1) ∧
    (store.length = MAX_HIGHLIGHTS →
      (List.take MAX_HIGHLIGHTS (assignTimestamp h now :: store)).length
        = MAX_HIGHLIGHTS) := by
  have hres := take_thousand_cons (assignTimestamp h now) store
  refine ⟨?_, ?_, ?_, assignTimestamp_id h now, ?_, ?_, ?_⟩
  · simp [saveHighlight, htext, hurl]
  · rw [hres]; rfl
  · rw [hres]; rfl
  · rw [hres, List.countP_cons]
    have hzero :
        (List.take 999 store).countP (fun r => decide (r.id = h.id)) = 0 := by
      rw [List.countP_eq_zero]
      intro a ha
      have hmem : a ∈ store := List.take_subset 999 store ha
      simp only [decide_eq_true_eq]
      exact hfresh a hmem
    rw [hzero]
    simp [assignTimestamp_id]
  · rw [List.length_take, List.length_cons]
  · intro hlen
    rw [List.length_take, List.length_cons, hlen]
    omega

/-- C1 witness: a concrete valid highlight saved onto the empty store. -/
theorem save_prepend_truncate_spec_witness :
    saveHighlight (some sampleRec) 7 []
      = some (assignTimestamp sampleRec 7,
              List.take MAX_HIGHLIGHTS (assignTimestamp sampleRec 7 :: [])) ∧
    getHighlights (List.take MAX_HIGHLIGHTS (assignTimestamp sampleRec 7 :: []))
      = assignTimestamp sampleRec 7 :: List.take 999 ([] : List JRec) ∧
    (List.take MAX_HIGHLIGHTS (assignTimestamp sampleRec 7 :: [])).head?
      = some (assignTimestamp sampleRec 7) ∧
    (assignTimestamp sampleRec 7).id = sampleRec.id ∧
    (List.take MAX_HIGHLIGHTS (assignTimestamp sampleRec 7 :: [])).countP
        (fun r => decide (r.id = sampleRec.id)) = 1 ∧
    (List.take MAX_HIGHLIGHTS (assignTimestamp sampleRec 7 :: [])).length
      = min MAX_HIGHLIGHTS (List.length ([] : List JRec) + 1) ∧
    (List.length ([] : List JRec) = MAX_HIGHLIGHTS →
      (List.take MAX_HIGHLIGHTS (assignTimestamp sampleRec 7 :: [])).length
        = MAX_HIGHLIGHTS) :=
  save_prepend_truncate_spec sampleRec 7 [] (by decide) (by decide)
    (by intro r hr; simp at hr)

/-! ## C2 — the serialization queue prevents lost updates -/

theorem take_cons_take_cons (a b : JRec) (l : List JRec) :
    List.take MAX_HIGHLIGHTS (b :: List.take MAX_HIGHLIGHTS (a :: l))
      = b :: a :: List.take 998 l := by
  rw [take_thousand_cons a l, take_thousand_cons b (a :: List.take 999 l)]
  rw [show (999 : Nat) = 998 + 1 by norm_num, List.take_succ_cons,
      List.take_take]
  norm_num

/-- C2: two back-to-back saves whose read-modify-write work overlaps are run
by the promise-chain lock in acquisition order — the first caller's read and
write both complete before the second caller's read (schedule
`[false, false, true, true]`) — and then both records are present in the
final stored list (the second save at the head, the first right after it).
For contrast, the racy schedule the lock forbids (both reads before either
write) loses the first update. -/
theorem locked_saves_no_lost_update (store : List JRec) (ha hb : JRec)
    (na nb : Int) :
    (runSchedule lockedSchedule store (initSaveTask ha na)
        (initSaveTask hb nb)).1
      = assignTimestamp hb nb :: assignTimestamp ha na :: List.take 998 store ∧
    assignTimestamp ha na ∈
      (runSchedule lockedSchedule store (initSaveTask ha na)
        (initSaveTask hb nb)).1 ∧
    assignTimestamp hb nb ∈
      (runSchedule lockedSchedule store (initSaveTask ha na)
        (initSaveTask hb nb)).1 ∧
    (runSchedule racySchedule store (initSaveTask ha na)
        (initSaveTask hb nb)).1
      = List.take MAX_HIGHLIGHTS (assignTimestamp hb nb :: store) := by
  have hrun :
      (runSchedule lockedSchedule store (initSaveTask ha na)
        (initSaveTask hb nb)).1
      = List.take MAX_HIGHLIGHTS (assignTimestamp hb nb ::
          List.take MAX_HIGHLIGHTS (assignTimestamp ha na :: store)) := by
    simp [runSchedule, lockedSchedule, saveTaskStep, initSaveTask]
  rw [hrun, take_cons_take_cons]
  refine ⟨rfl, ?_, ?_, ?_⟩
  · exact List.mem_cons_of_mem _ (List.mem_cons_self _ _)
  · exact List.mem_cons_self _ _
  · simp [runSchedule, racySchedule, saveTaskStep, initSaveTask]

/-! ## C3 — validation at the import and save boundaries -/

/-- A record with no `id` and no `timestamp` but truthy `text` and `url`:
the save boundary admits it although it fails the well-typedness predicate. -/
def noIdRec : JRec :=
  { id := none
    text := some (JVal.str "a")
    url := some (JVal.str "b")
    timestamp := none }

/-- The record `noIdRec` as `saveHighlight` stores it (timestamp defaulted
to the clock value `5`). -/
def noIdRecSaved : JRec :=
  { id := none
    text := some (JVal.str "a")
    url := some (JVal.str "b")
    timestamp := some (JVal.num 5) }

/-- C3 counterexample: a record lacking `id` fails the claimed
well-typedness predicate, yet the save boundary admits it — `saveHighlight`
only checks that `text` and `url` are truthy — and the resulting reachable
stored state `[noIdRecSaved]` contains an element that still fails the
predicate, so neither the claimed rejection at the save boundary nor the
claimed stored-state invariant holds. -/
theorem save_boundary_admits_invalid :
    saveHighlight (some noIdRec) 5 [] = some (noIdRecSaved, [noIdRecSaved]) ∧
    (isNonEmptyStr noIdRec.id && isNonEmptyStr noIdRec.text &&
      isNonEmptyStr noIdRec.url && isPosNum noIdRec.timestamp) = false ∧
    getHighlights [noIdRecSaved] = [noIdRecSaved] ∧
    (isNonEmptyStr noIdRecSaved.id && isNonEmptyStr noIdRecSaved.text &&
      isNonEmptyStr noIdRecSaved.url && isPosNum noIdRecSaved.timestamp)
      = false := by
  decide

/-- C3 amended: the full well-typedness predicate (non-empty string `id`,
`text`, `url`; positive numeric `timestamp`) is enforced at the import
boundary — every record passing the import filter satisfies it — but the
save boundary checks only that `text` and `url` are truthy (defaulting a
missing timestamp), so a record without a well-typed `id` can enter the
store via `saveHighlight` and the resulting stored state contains an
element violating the predicate. -/
theorem validation_boundaries :
    (∀ (incoming : List (Option JRec)) (r : JRec),
        r ∈ filterValid bgImportValid incoming →
        (isNonEmptyStr r.id && isNonEmptyStr r.text && isNonEmptyStr r.url &&
          isPosNum r.timestamp) = true) ∧
    (∀ (oh : Option JRec) (now : Int) (store : List JRec),
        (saveHighlight oh now store).isSome = saveAccepted oh) ∧
    (∃ (h : JRec) (now : Int) (p : JRec × List JRec),
        saveHighlight (some h) now [] = some p ∧
        ∃ r ∈ getHighlights p.2,
          (isNonEmptyStr r.id && isNonEmptyStr r.text && isNonEmptyStr r.url &&
            isPosNum r.timestamp) = false) := by
  refine ⟨?_, ?_, ?_⟩
  · intro incoming r hr
    have hv := mem_filterValid bgImportValid incoming r hr
    unfold bgImportValid at hv
    simp only [Bool.and_eq_true] at hv ⊢
    obtain ⟨⟨⟨h1, h2⟩, h3⟩, h4⟩ := hv
    exact ⟨⟨⟨h1, isBoundedStr_nonEmpty _ _ h2⟩, isBoundedStr_nonEmpty _ _ h3⟩, h4⟩
  · intro oh now store
    match oh with
    | none => rfl
    | some h =>
      unfold saveHighlight saveAccepted
      cases ht : truthy h.text <;> cases hu : truthy h.url <;> simp [ht, hu]
  · exact ⟨noIdRec, 5, (noIdRecSaved, [noIdRecSaved]), by decide,
      noIdRecSaved, by decide, by decide⟩

/-- C3 amended witness: the import-boundary half applied to a concrete
singleton import. -/
theorem validation_boundaries_witness :
    (isNonEmptyStr sampleRec.id && isNonEmptyStr sampleRec.text &&
      isNonEmptyStr sampleRec.url && isPosNum sampleRec.timestamp) = true :=
  validation_boundaries.1 [some sampleRec] sampleRec (by decide)

/-! ## C4 — replace-mode import -/

/-- C4 counterexample: replace-mode import of 1001 valid records stores all
1001 of them — the replace branch of `importHighlights` applies no capacity
truncation, contradicting the claimed 1000-entry cap. -/
theorem replace_import_exceeds_cap :
    MAX_HIGHLIGHTS <
      (importHighlights (List.replicate 1001 (some sampleRec)) false
        []).store.length := by
  have hstore :
      (importHighlights (List.replicate 1001 (some sampleRec)) false
        []).store = List.replicate 1001 sampleRec := by
    simp only [importHighlights, if_neg (by decide : ¬(false = true))]
    exact filterValid_replicate_some bgImportValid sampleRec 1001 (by decide)
  rw [hstore, List.length_replicate]
  norm_num [MAX_HIGHLIGHTS]

/-- C4 amended: replace-mode import discards the entire existing list and
stores exactly the validated incoming records — with no capacity truncation
in this mode — and reports `imported` = number of valid records and
`skippedInvalid` = number of dropped records; every stored record passes
the background validation filter, and the result is independent of the
previous contents. -/
theorem replace_import_spec (incoming : List (Option JRec))
    (existing : List JRec) :
    importHighlights incoming false existing
      = { store := filterValid bgImportValid incoming
          imported := (filterValid bgImportValid incoming).length
          skippedDuplicates := 0
          skippedInvalid :=
            incoming.length - (filterValid bgImportValid incoming).length } ∧
    getHighlights ((importHighlights incoming false existing).store)
      = filterValid bgImportValid incoming ∧
    (∀ r ∈ (importHighlights incoming false existing).store,
        bgImportValid r = true) ∧
    (importHighlights incoming false existing).store
      = (importHighlights incoming false []).store := by
  refine ⟨rfl, rfl, ?_, rfl⟩
  intro r hr
  exact mem_filterValid bgImportValid incoming r hr

/-- C4 amended witness: the validated-store half applied to a concrete
replace-mode import of one valid record. -/
theorem replace_import_spec_witness :
    bgImportValid sampleRec = true :=
  (replace_import_spec [some sampleRec] []).2.2.1 sampleRec (by decide)

/-! ## C5 — merge-mode import -/

/-- The `newHighlights` local of the merge branch: valid incoming records
whose id does not collide with an existing one. -/
def mergeNewHighlights (incoming : List (Option JRec))
    (existing : List JRec) : List JRec :=
  (filterValid bgImportValid incoming).filter
    (fun h => !(decide (h.id ∈ existing.map (fun r => r.id))))

/-- C5: merge-mode import drops valid incoming records whose id collides
with an existing id (counted as `skippedDuplicates`), prepends the rest,
truncates the combined list to the 1000-entry cap from the tail, and
reports `imported` = number of prepended records; every stored record is
either one of the prepended records or one of the existing records kept
verbatim. -/
theorem merge_import_spec (incoming : List (Option JRec))
    (existing : List JRec) :
    importHighlights incoming true existing
      = { store := List.take MAX_HIGHLIGHTS
            (mergeNewHighlights incoming existing ++ existing)
          imported := (mergeNewHighlights incoming existing).length
          skippedDuplicates := (filterValid bgImportValid incoming).length -
            (mergeNewHighlights incoming existing).length
          skippedInvalid :=
            incoming.length - (filterValid bgImportValid incoming).length } ∧
    (filterValid bgImportValid incoming).length -
        (mergeNewHighlights incoming existing).length
      = ((filterValid bgImportValid incoming).filter
          (fun h => decide (h.id ∈ existing.map (fun r => r.id)))).length ∧
    ∀ r ∈ (importHighlights incoming true existing).store,
      r ∈ mergeNewHighlights incoming existing ∨ r ∈ existing := by
  refine ⟨rfl, ?_, ?_⟩
  · have hsum := length_filter_not_add_length_filter
      (fun h => decide (h.id ∈ existing.map (fun r => r.id)))
      (filterValid bgImportValid incoming)
    unfold mergeNewHighlights
    omega
  · intro r hr
    have hr2 : r ∈ mergeNewHighlights incoming existing ++ existing := by
      have : (importHighlights incoming true existing).store
          = List.take MAX_HIGHLIGHTS
              (mergeNewHighlights incoming existing ++ existing) := rfl
      rw [this] at hr
      exact List.take_subset _ _ hr
    exact List.mem_append.mp hr2

/-! ## C6 — popup vs background validation predicates -/

/-- A 1001-character text body (within the popup bound of 10000 but past the
background bound of 1000). -/
def longText : String := String.mk (List.replicate 1001 'x')

/-- A record that the popup validator accepts and the background import
filter rejects. -/
def longTextRec : JRec :=
  { id := some (JVal.str "i")
    text := some (JVal.str longText)
    url := some (JVal.str "u")
    timestamp := some (JVal.num 1) }

/-- C6 counterexample: the two validation predicates disagree — the popup's
`validateHighlight` allows texts up to 10000 characters while the
background filter caps at 1000, so a 1001-character record gets opposite
verdicts. -/
theorem validators_disagree :
    validateHighlight longTextRec = true ∧
    bgImportValid longTextRec = false := by
  decide

/-- C6 amended: the background import filter refines the popup validator —
every record the background filter accepts is accepted by the popup's
`validateHighlight` (its bounds 10000/2048 dominate the background's
1000/500) — but not conversely: a record with a 1001-character text is
accepted by the popup and rejected by the background, so the two predicates
do not return the same verdict on every record. -/
theorem validation_refinement :
    (∀ r : JRec, bgImportValid r = true → validateHighlight r = true) ∧
    (∃ r : JRec, validateHighlight r = true ∧ bgImportValid r = false) := by
  constructor
  · intro r hr
    unfold bgImportValid at hr
    unfold validateHighlight
    simp only [Bool.and_eq_true] at hr ⊢
    obtain ⟨⟨⟨h1, h2⟩, h3⟩, h4⟩ := hr
    refine ⟨⟨⟨h1, ?_⟩, ?_⟩, h4⟩
    · exact isBoundedStr_mono _ MAX_TEXT_LENGTH 10000 (by norm_num [MAX_TEXT_LENGTH]) h2
    · exact isBoundedStr_mono _ MAX_URL_LENGTH 2048 (by norm_num [MAX_URL_LENGTH]) h3
  · exact ⟨longTextRec, by decide, by decide⟩

/-- C6 amended witness: the refinement direction applied to a concrete
record accepted by the background filter. -/
theorem validation_refinement_witness :
    validateHighlight sampleRec = true :=
  validation_refinement.1 sampleRec (by decide)

/-! ## C7 — sliding-window rate limiter -/

theorem filter_window_all (now : Int) (l : List Int)
    (h : ∀ t ∈ l, now - t < RATE_LIMIT_WINDOW) :
    l.filter (fun t => decide (now - t < RATE_LIMIT_WINDOW)) = l :=
  List.filter_eq_self.mpr (fun a ha => decide_eq_true (h a ha))

theorem filter_window_none (now : Int) (l : List Int)
    (h : ∀ t ∈ l, ¬(now - t < RATE_LIMIT_WINDOW)) :
    l.filter (fun t => decide (now - t < RATE_LIMIT_WINDOW)) = [] := by
  rw [List.filter_eq_nil_iff]
  intro a ha
  simpa using h a ha

/-- C7: starting from an empty timestamp list, five admission checks at
nondecreasing times within one 60-second window all succeed (each appending
its own timestamp after pruning), the sixth within the same window fails
with the remaining wait in whole seconds computed from the oldest in-window
timestamp (`Math.ceil`), and a later check made once the window has elapsed
past all five recorded calls is admitted again with the stale timestamps
pruned. -/
theorem rate_limiter_spec (t1 t2 t3 t4 t5 t6 t7 : Int)
    (h12 : t1 ≤ t2) (h23 : t2 ≤ t3) (h34 : t3 ≤ t4) (h45 : t4 ≤ t5)
    (h56 : t5 ≤ t6) (hwin : t6 - t1 < 60000) (helapsed : 60000 ≤ t7 - t5) :
    checkRateLimit t1 [] = Except.ok [t1] ∧
    checkRateLimit t2 [t1] = Except.ok [t1, t2] ∧
    checkRateLimit t3 [t1, t2] = Except.ok [t1, t2, t3] ∧
    checkRateLimit t4 [t1, t2, t3] = Except.ok [t1, t2, t3, t4] ∧
    checkRateLimit t5 [t1, t2, t3, t4] = Except.ok [t1, t2, t3, t4, t5] ∧
    checkRateLimit t6 [t1, t2, t3, t4, t5]
      = Except.error (Int.ediv (60000 - (t6 - t1) + 999) 1000) ∧
    checkRateLimit t7 [t1, t2, t3, t4, t5] = Except.ok [t7] := by
  have hW : RATE_LIMIT_WINDOW = 60000 := rfl
  refine ⟨rfl, ?_, ?_, ?_, ?_, ?_, ?_⟩
  · unfold checkRateLimit
    rw [filter_window_all t2 [t1] (by intro t ht; simp at ht; omega)]
    rfl
  · unfold checkRateLimit
    rw [filter_window_all t3 [t1, t2]
      (by intro t ht; simp at ht; rcases ht with h | h <;> omega)]
    rfl
  · unfold checkRateLimit
    rw [filter_window_all t4 [t1, t2, t3]
      (by intro t ht; simp at ht; rcases ht with h | h | h <;> omega)]
    rfl
  · unfold checkRateLimit
    rw [filter_window_all t5 [t1, t2, t3, t4]
      (by intro t ht; simp at ht; rcases ht with h | h | h | h <;> omega)]
    rfl
  · unfold checkRateLimit
    rw [filter_window_all t6 [t1, t2, t3, t4, t5]
      (by intro t ht; simp at ht; rcases ht with h | h | h | h | h <;> omega)]
    rfl
  · unfold checkRateLimit
    rw [filter_window_none t7 [t1, t2, t3, t4, t5]
      (by intro t ht; simp at ht; rcases ht with h | h | h | h | h <;> omega)]
    rfl

/-- C7 witness: five calls at time 0, a sixth rejected call at time 0
reporting a 60-second wait, and an admitted call at time 60000. -/
theorem rate_limiter_spec_witness :
    checkRateLimit 0 [] = Except.ok [0] ∧
    checkRateLimit 0 [0] = Except.ok [0, 0] ∧
    checkRateLimit 0 [0, 0] = Except.ok [0, 0, 0] ∧
    checkRateLimit 0 [0, 0, 0] = Except.ok [0, 0, 0, 0] ∧
    checkRateLimit 0 [0, 0, 0, 0] = Except.ok [0, 0, 0, 0, 0] ∧
    checkRateLimit 0 [0, 0, 0, 0, 0]
      = Except.error (Int.ediv (60000 - (0 - 0) + 999) 1000) ∧
    checkRateLimit 60000 [0, 0, 0, 0, 0] = Except.ok [60000] :=
  rate_limiter_spec 0 0 0 0 0 0 60000 (by norm_num) (by norm_num)
    (by norm_num) (by norm_num) (by norm_num) (by norm_num) (by norm_num)

/-! ## C8 — in-flight request de-duplication -/

theorem mapGet_nil {α : Type} (k : String) :
    mapGet ([] : List (String × α)) k = none := rfl

theorem mapGet_append_single {α : Type} (q : List (String × α)) (k : String)
    (v : α) (h : mapGet q k = none) : mapGet (q ++ [(k, v)]) k = some v := by
  induction q with
  | nil => simp [mapGet]
  | cons kv q ih =>
    by_cases hk : kv.1 = k
    · exfalso
      unfold mapGet at h
      rw [List.find?_cons_of_pos _ (by simpa using hk)] at h
      simp at h
    · unfold mapGet at h ⊢
      rw [List.find?_cons_of_neg _ (by simpa using hk)] at h
      rw [List.cons_append, List.find?_cons_of_neg _ (by simpa using hk)]
      exact ih h

theorem mapGet_none_not_mem {α : Type} (q : List (String × α)) (k : String)
    (h : mapGet q k = none) : k ∉ q.map Prod.fst := by
  intro hmem
  rcases List.mem_map.mp hmem with ⟨kv, hkv, hfst⟩
  unfold mapGet at h
  rcases hfind : q.find? (fun kv => decide (kv.1 = k)) with _ | found
  · have := List.find?_eq_none.mp hfind kv hkv
    simp at this
    exact this hfst
  · rw [hfind] at h
    simp at h

/-- C8: when a key is neither (truthily) cached nor in flight, the first
`summarizeHighlight` caller issues exactly one outbound request and awaits
its registered promise; a second caller arriving while that request is
pending finds the registry entry, awaits the very same promise, changes
nothing, and issues no further outbound call — so two concurrent calls with
the same cache key trigger one outbound request and both receive its (one)
result.  Moreover the synchronous prefix preserves key-uniqueness of the
registry, so no key ever holds two live requests. -/
theorem single_flight_summarize (st : AIState) (key : String) (now : Int)
    (hc : cmGetCachedSummary st.summaryCache now key = none)
    (hq : mapGet st.apiRequestQueue key = none) :
    (startSummarize key now st).1
      = StartOutcome.awaitRequest st.nextRequestId ∧
    (startSummarize key now (startSummarize key now st).2).1
      = StartOutcome.awaitRequest st.nextRequestId ∧
    (startSummarize key now (startSummarize key now st).2).2
      = (startSummarize key now st).2 ∧
    ((startSummarize key now st).2).outboundCalls = st.outboundCalls + 1 ∧
    ((st.apiRequestQueue.map Prod.fst).Nodup →
      (((startSummarize key now st).2).apiRequestQueue.map Prod.fst).Nodup) := by
  have e1 : startSummarize key now st
      = (StartOutcome.awaitRequest st.nextRequestId,
         { st with
            apiRequestQueue := st.apiRequestQueue ++ [(key, st.nextRequestId)]
            outboundCalls := st.outboundCalls + 1
            nextRequestId := st.nextRequestId + 1 }) := by
    unfold startSummarize startMiss
    rw [hc, hq]
  have hget2 :
      mapGet (st.apiRequestQueue ++ [(key, st.nextRequestId)]) key
        = some st.nextRequestId :=
    mapGet_append_single st.apiRequestQueue key st.nextRequestId hq
  have e2 : startSummarize key now (startSummarize key now st).2
      = (StartOutcome.awaitRequest st.nextRequestId,
         (startSummarize key now st).2) := by
    rw [e1]
    unfold startSummarize startMiss
    rw [hc, hget2]
  refine ⟨by rw [e1], by rw [e2, e1], by rw [e2], by rw [e1], ?_⟩
  intro hnodup
  rw [e1]
  simp only [List.map_append, List.map_cons, List.map_nil]
  rw [List.nodup_append]
  refine ⟨hnodup, List.nodup_singleton key, ?_⟩
  intro a ha hb
  simp only [List.mem_singleton] at hb
  exact mapGet_none_not_mem st.apiRequestQueue key hq (hb ▸ ha)

/-- C8 witness: two back-to-back calls on the empty state. -/
theorem single_flight_summarize_witness :
    (startSummarize "k" 0 (⟨[], [], 0, 0⟩ : AIState)).1
      = StartOutcome.awaitRequest 0 ∧
    (startSummarize "k" 0 (startSummarize "k" 0 (⟨[], [], 0, 0⟩ : AIState)).2).1
      = StartOutcome.awaitRequest 0 ∧
    (startSummarize "k" 0 (startSummarize "k" 0 (⟨[], [], 0, 0⟩ : AIState)).2).2
      = (startSummarize "k" 0 (⟨[], [], 0, 0⟩ : AIState)).2 ∧
    ((startSummarize "k" 0 (⟨[], [], 0, 0⟩ : AIState)).2).outboundCalls = 0 + 1 ∧
    ((([] : List (String × Nat)).map Prod.fst).Nodup →
      (((startSummarize "k" 0 (⟨[], [], 0, 0⟩ : AIState)).2).apiRequestQueue.map
        Prod.fst).Nodup) :=
  single_flight_summarize ⟨[], [], 0, 0⟩ "k" 0 rfl rfl

/-! ## C9 — TTL-expired cache reads -/

/-- C10: the summary cache key is a pure function of `(text, url, title)` —
equal inputs give equal keys — and it identifies any two highlights whose
texts agree on their first 100 characters (with equal url and title); it is
not injective: two highlights differing only in one punctuation character
produce the same key, so a cached or in-flight summary for one can be
served for the other. -/
theorem cache_key_deterministic_not_injective :
    (∀ h1 h2 : SummaryHighlight, h1.text = h2.text → h1.url = h2.url →
        h1.title = h2.title →
        generateSummaryCacheKey h1 = generateSummaryCacheKey h2) ∧
    (∀ h1 h2 : SummaryHighlight, jsTake h1.text 100 = jsTake h2.text 100 →
        h1.url = h2.url → h1.title = h2.title →
        generateSummaryCacheKey h1 = generateSummaryCacheKey h2) ∧
    (∃ h1 h2 : SummaryHighlight, h1 ≠ h2 ∧
        generateSummaryCacheKey h1 = generateSummaryCacheKey h2) := by
  refine ⟨?_, ?_, ?_⟩
  · intro h1 h2 ht hu hti
    unfold generateSummaryCacheKey
    rw [ht, hu, hti]
  · intro h1 h2 ht hu hti
    unfold generateSummaryCacheKey
    rw [ht, hu, hti]
  · exact ⟨⟨"a b", "u", "t"⟩, ⟨"a.b", "u", "t"⟩, by decide, by decide⟩

/-- C10 witness: determinism applied at a concrete pair of equal inputs. -/
theorem cache_key_deterministic_witness :
    generateSummaryCacheKey ⟨"a b", "u", "t"⟩
      = generateSummaryCacheKey ⟨"a b", "u", "t"⟩ :=
  cache_key_deterministic_not_injective.1 ⟨"a b", "u", "t"⟩ ⟨"a b", "u", "t"⟩
    rfl rfl rfl
